import Mathlib

/-!
Verification of the TwitterFeedSweeper browser extension
(src/content.js and src/background.js).

The development shallowly embeds the extension's state and operations:
* `Agent` is the in-memory state of the `TwitterNavigator` class in
  src/content.js (fields `postCache`, `currentIndex`, `isEnabled`,
  `lastCollectionTime`).
* `Store` is the persisted key-value state (`chrome.storage.local`), with
  `Option` marking keys that may be unset (JS `undefined`).
* `Sys` couples the agent with the store and a log of page loads
  performed via `window.location.href`.
Pure functions mirror the JS methods line by line; DOM input is
abstracted as the list of tweet elements produced by the selector
cascade, each tweet given as the list of `href` values of its anchors.
-/

namespace TFS

/-! ## Strings: the link filter of `collectPosts` (src/content.js:150-154) -/

/-- Substring test on character lists: model of JS `String.prototype.includes`. -/
def containsSub (hay needle : List Char) : Bool :=
  if needle.isPrefixOf hay then true
  else
    match hay with
    | [] => false
    | _ :: t => containsSub t needle

/-- Does the list start with `/status/` followed by at least one digit?
One anchoring position of the JS regex `/\/status\/\d+/`. -/
def statusAt (l : List Char) : Bool :=
  ("/status/".toList).isPrefixOf l &&
    (match l.drop 8 with
     | c :: _ => c.isDigit
     | [] => false)

/-- Model of `href.match(/\/status\/\d+/)`: the pattern occurs somewhere in the string. -/
def hasStatusNum : List Char → Bool
  | [] => false
  | c :: t => statusAt (c :: t) || hasStatusNum t

/-- The filter applied to candidate links in src/content.js:151-154:
must match `/\/status\/\d+/` and must not contain `/analytics`. -/
def validStatusLink (href : String) : Bool :=
  hasStatusNum href.toList && !(containsSub href.toList "/analytics".toList)

/-- The CSS selector `a[href*="/status/"]` of src/content.js:150. -/
def hrefSelector (href : String) : Bool :=
  containsSub href.toList "/status/".toList

/-- Per-tweet link extraction (src/content.js:150-154): take the anchors whose
href contains `/status/` and find the first one passing `validStatusLink`. -/
def findStatusLink (tweet : List String) : Option String :=
  (tweet.filter hrefSelector).find? validStatusLink

/-! ## State -/

/-- In-memory state of the `TwitterNavigator` (src/content.js:2-8). -/
structure Agent where
  postCache : List String
  currentIndex : Int
  isEnabled : Bool
  lastCollectionTime : Nat
  deriving DecidableEq

/-- Persisted `chrome.storage.local` keys; `none` models an unset key. -/
structure Store where
  isEnabled : Option Bool
  postCache : Option (List String)
  currentIndex : Option Int
  deriving DecidableEq

/-- Whole-system state: one page agent, the store, and the log of full page
loads triggered by `window.location.href` assignments. -/
structure Sys where
  agent : Agent
  store : Store
  pageLoads : List String
  deriving DecidableEq

/-- Agent state right after the constructor runs (src/content.js:2-8). -/
def freshAgent : Agent :=
  { postCache := [], currentIndex := -1, isEnabled := true, lastCollectionTime := 0 }

/-- System state after install (background.js:8-15 writes
`isEnabled=true, postCache=[], currentIndex=-1`) with a fresh page agent. -/
def initialSys : Sys :=
  { agent := freshAgent,
    store := { isEnabled := some true, postCache := some [], currentIndex := some (-1) },
    pageLoads := [] }

/-! ## Collection (src/content.js:119-181) -/

/-- `this.postCache.push(...)` guarded by `!this.postCache.includes(...)`
(src/content.js:156-157). -/
def pushIfNew (cache : List String) (href : String) : List String :=
  if cache.contains href then cache else cache ++ [href]

/-- One iteration of the tweet loop in src/content.js:147-166. -/
def collectTweet (cache : List String) (tweet : List String) : List String :=
  match findStatusLink tweet with
  | none => cache
  | some href => pushIfNew cache href

/-- `collectPosts` (src/content.js:119-181). `now` is `Date.now()`; `tweets`
is the element list produced by the selector cascade.  Returns unchanged when
disabled (line 120) or within the 1000 ms cooldown (line 123); otherwise
records `now`, folds the tweet loop, and persists the new list to the store
exactly when new posts were found (lines 168-170). -/
def collectPosts (s : Sys) (now : Nat) (tweets : List (List String)) : Sys :=
  if s.agent.isEnabled = false then s
  else if now - s.agent.lastCollectionTime < 1000 then s
  else
    let cache2 := tweets.foldl collectTweet s.agent.postCache
    { s with
      agent := { s.agent with postCache := cache2, lastCollectionTime := now },
      store := if cache2 = s.agent.postCache then s.store
               else { s.store with postCache := some cache2 } }

/-- A sequence of `collectPosts` invocations, each with its timestamp and
page contents. -/
def collectRun (s : Sys) (invs : List (Nat × List (List String))) : Sys :=
  invs.foldl (fun t p => collectPosts t p.1 p.2) s

/-- The rate-limit gate of src/content.js:120-123: the invocation scans
(and records `now`) iff enabled and outside the cooldown window. -/
def performsCollect (s : Sys) (now : Nat) : Prop :=
  s.agent.isEnabled = true ∧ 1000 ≤ now - s.agent.lastCollectionTime

instance (s : Sys) (now : Nat) : Decidable (performsCollect s now) := by
  unfold performsCollect; infer_instance

/-! ## Navigation (src/content.js:259-303) -/

/-- The `targetIndex` local of `navigate` (src/content.js:266-277): where the
cursor would move, before the bounds validation of line 280. -/
def targetOf (s : Sys) (direction : String) : Int :=
  if direction = "next" then
    if s.agent.currentIndex = -1 ∨
        s.agent.currentIndex ≥ (s.agent.postCache.length : Int) - 1 then 0
    else s.agent.currentIndex + 1
  else if direction = "prev" ∧ s.agent.currentIndex > 0 then
    s.agent.currentIndex - 1
  else s.agent.currentIndex

/-- `navigate(direction)` from src/content.js:259-303, translated line by
line.  The direction is the JS string argument (`"next"` / `"prev"`).  When
the validated target is in bounds, the cursor moves, the new cursor is
persisted, and the target post's URL is loaded (line 296). -/
def navigate (s : Sys) (direction : String) : Sys :=
  if s.agent.isEnabled = false ∨ s.agent.postCache.length = 0 then s
  else if 0 ≤ targetOf s direction ∧
      targetOf s direction < (s.agent.postCache.length : Int) then
    { agent := { s.agent with currentIndex := targetOf s direction },
      store := { s.store with currentIndex := some (targetOf s direction) },
      pageLoads := s.pageLoads ++
        [s.agent.postCache.getD (targetOf s direction).toNat ""] }
  else s

/-! ## Cache hydration (src/content.js:103-110) -/

/-- JS `result.currentIndex || -1` on an optionally-present number:
`undefined` and `0` are falsy, every other stored integer is kept. -/
def jsOrNeg1 : Option Int → Int
  | none => -1
  | some x => if x = 0 then -1 else x

/-- `loadCache` (src/content.js:103-110): if a `postCache` key is present
(any array is truthy, the empty one included), overwrite the in-memory list
and set the cursor to `result.currentIndex || -1`. -/
def loadCache (s : Sys) : Sys :=
  match s.store.postCache with
  | some l =>
      { s with agent :=
          { s.agent with
            postCache := l
            currentIndex := jsOrNeg1 s.store.currentIndex } }
  | none => s

/-- Fresh-page attach: constructor plus `initialize()` (src/content.js:60-92)
on a page whose scan yields `tweets` at time `now`.  `getState` returns
`result.isEnabled ?? true` from the store (background.js:56-62); when enabled
the agent collects, then hydrates from the store iff the in-memory list is
still empty (lines 78-85). -/
def attachSys (st : Store) (now : Nat) (tweets : List (List String)) : Sys :=
  let s0 : Sys := { agent := freshAgent, store := st, pageLoads := [] }
  let enabled := st.isEnabled.getD true
  let s1 : Sys := { s0 with agent := { s0.agent with isEnabled := enabled } }
  if enabled = false then s1
  else
    let s2 := collectPosts s1 now tweets
    if s2.agent.postCache.isEmpty then loadCache s2 else s2

/-! ## Page-agent operations (claim C1's vocabulary) -/

/-- The Page Agent operations named by the cursor-bound claim: collection,
navigation, state-change (src/content.js:47-58) and cache-hydration
(src/content.js:103-110, invoked under the `postCache.length === 0` guard of
line 82). -/
inductive Op where
  | collect (now : Nat) (tweets : List (List String))
  | nav (direction : String)
  | stateChange (enabled : Bool)
  | hydrate
  deriving DecidableEq

/-- One operation step.  `stateChange false` is `handleStateChange(false)`:
it clears only the in-memory list and cursor (src/content.js:51-54), never
the store.  `stateChange true` re-reads the enabled flag from the store via
`getState` (the re-run `initialize()` then continues with collection and
guarded hydration, which appear as their own operations). -/
def stepOp (s : Sys) : Op → Sys
  | .collect now tweets => collectPosts s now tweets
  | .nav direction => navigate s direction
  | .stateChange false =>
      { s with agent := { s.agent with isEnabled := false, postCache := [], currentIndex := -1 } }
  | .stateChange true =>
      { s with agent := { s.agent with isEnabled := s.store.isEnabled.getD true } }
  | .hydrate => if s.agent.postCache.isEmpty then loadCache s else s

def runOps (s : Sys) (ops : List Op) : Sys :=
  ops.foldl stepOp s

/-- The cursor bound invariant stated by the spec: the cursor is the
sentinel `-1` or a valid index into the Post List. -/
def cursorInv (s : Sys) : Prop :=
  s.agent.currentIndex = -1 ∨
    (0 ≤ s.agent.currentIndex ∧ s.agent.currentIndex < s.agent.postCache.length)

instance (s : Sys) : Decidable (cursorInv s) := by
  unfold cursorInv; infer_instance

/-! ## Background coordinator (background.js) -/

/-- Observable outcome of a background toggle handler: the new store, the
`STATE_CHANGED` messages sent to tabs (tab id, flag), and whether the active
tab was reloaded. -/
structure BgResult where
  store : Store
  broadcasts : List (Nat × Bool)
  reloadedActive : Bool
  deriving DecidableEq

/-- The `TOGGLE_STATE` message handler (background.js:64-88): persist the
flag, clear `postCache`/`currentIndex` when disabling, and reload the active
tab when enabling on a matching page.  `matchingTabs` lists the open pages
matching the target site; the handler sends no message to any of them. -/
def toggleStateHandler (st : Store) (enabled : Bool) (activeMatches : Bool)
    (_matchingTabs : List Nat) : BgResult :=
  { store := { isEnabled := some enabled,
               postCache := if enabled then st.postCache else some [],
               currentIndex := if enabled then st.currentIndex else some (-1) },
    broadcasts := [],
    reloadedActive := enabled && activeMatches }

/-- The `toggle-extension` keyboard-command handler (background.js:18-52):
flip the stored flag, persist (clearing cache/index when disabling),
broadcast `STATE_CHANGED` to every matching tab, reload the active tab when
enabling on a matching page. -/
def commandToggleHandler (st : Store) (activeMatches : Bool)
    (matchingTabs : List Nat) : BgResult :=
  let newState := !(st.isEnabled.getD true)
  { store := { isEnabled := some newState,
               postCache := if newState then st.postCache else some [],
               currentIndex := if newState then st.currentIndex else some (-1) },
    broadcasts := matchingTabs.map (fun t => (t, newState)),
    reloadedActive := newState && activeMatches }

/-! ## Concrete states used by witnesses and counterexamples -/

def urlA : String := "https://x.com/a/status/11"
def urlB : String := "https://x.com/a/status/22"
def urlC : String := "https://x.com/a/status/33"

/-- Enabled agent, two collected posts, cursor at the sentinel. -/
def sTwo : Sys :=
  { agent := { postCache := [urlA, urlB], currentIndex := -1, isEnabled := true,
               lastCollectionTime := 0 },
    store := { isEnabled := some true, postCache := some [urlA, urlB], currentIndex := some (-1) },
    pageLoads := [] }

/-- Enabled agent, one collected post, cursor at index 0. -/
def sPrev0 : Sys :=
  { agent := { postCache := [urlA], currentIndex := 0, isEnabled := true,
               lastCollectionTime := 0 },
    store := { isEnabled := some true, postCache := some [urlA], currentIndex := some 0 },
    pageLoads := [] }

/-- Enabled agent, two collected posts, cursor at index 1. -/
def sPrev1 : Sys :=
  { agent := { postCache := [urlA, urlB], currentIndex := 1, isEnabled := true,
               lastCollectionTime := 0 },
    store := { isEnabled := some true, postCache := some [urlA, urlB], currentIndex := some 1 },
    pageLoads := [] }

/-- Disabled agent. -/
def sOff : Sys :=
  { agent := { postCache := [urlA], currentIndex := 0, isEnabled := false,
               lastCollectionTime := 0 },
    store := { isEnabled := some false, postCache := some [], currentIndex := some (-1) },
    pageLoads := [] }

/-! ## Navigation lemmas shared by C3 and C4 -/

lemma navigate_guard_neg (s : Sys)
    (h1 : s.agent.isEnabled = true) (hlen : 0 < s.agent.postCache.length) :
    ¬(s.agent.isEnabled = false ∨ s.agent.postCache.length = 0) := by
  rintro (h | h)
  · rw [h1] at h; cases h
  · omega

lemma targetOf_next_wrap (s : Sys)
    (hc : s.agent.currentIndex = -1 ∨
      s.agent.currentIndex ≥ (s.agent.postCache.length : Int) - 1) :
    targetOf s "next" = 0 := by
  unfold targetOf
  rw [if_pos rfl, if_pos hc]

lemma targetOf_next_step (s : Sys)
    (hc : ¬(s.agent.currentIndex = -1 ∨
      s.agent.currentIndex ≥ (s.agent.postCache.length : Int) - 1)) :
    targetOf s "next" = s.agent.currentIndex + 1 := by
  unfold targetOf
  rw [if_pos rfl, if_neg hc]

lemma targetOf_prev_pos (s : Sys) (hc : s.agent.currentIndex > 0) :
    targetOf s "prev" = s.agent.currentIndex - 1 := by
  unfold targetOf
  rw [if_neg (by decide : ¬("prev" : String) = "next"), if_pos ⟨rfl, hc⟩]

lemma targetOf_prev_nonpos (s : Sys) (hc : ¬s.agent.currentIndex > 0) :
    targetOf s "prev" = s.agent.currentIndex := by
  unfold targetOf
  rw [if_neg (by decide : ¬("prev" : String) = "next"),
    if_neg (by rintro ⟨-, h⟩; exact hc h)]

lemma navigate_valid (s : Sys) (direction : String)
    (hg : ¬(s.agent.isEnabled = false ∨ s.agent.postCache.length = 0))
    (hv : 0 ≤ targetOf s direction ∧
      targetOf s direction < (s.agent.postCache.length : Int)) :
    navigate s direction =
      { agent := { s.agent with currentIndex := targetOf s direction },
        store := { s.store with currentIndex := some (targetOf s direction) },
        pageLoads := s.pageLoads ++
          [s.agent.postCache.getD (targetOf s direction).toNat ""] } := by
  unfold navigate
  rw [if_neg hg, if_pos hv]

lemma navigate_invalid (s : Sys) (direction : String)
    (hg : ¬(s.agent.isEnabled = false ∨ s.agent.postCache.length = 0))
    (hv : ¬(0 ≤ targetOf s direction ∧
      targetOf s direction < (s.agent.postCache.length : Int))) :
    navigate s direction = s := by
  unfold navigate
  rw [if_neg hg, if_neg hv]

/-! ## C3: circular next -/

/-- C3: in an enabled state with a non-empty Post List, `navigate("next")`
from the sentinel `-1` or from the last index sets the cursor to 0, and from
any index `i` with `0 <= i < N-1` sets the cursor to `i+1`. -/
theorem C3_circular_next (s : Sys)
    (h1 : s.agent.isEnabled = true) (h2 : s.agent.postCache ≠ []) :
    ((s.agent.currentIndex = -1 ∨
        s.agent.currentIndex = (s.agent.postCache.length : Int) - 1) →
      (navigate s "next").agent.currentIndex = 0)
  ∧ (∀ i : Int, 0 ≤ i → i < (s.agent.postCache.length : Int) - 1 →
      s.agent.currentIndex = i → (navigate s "next").agent.currentIndex = i + 1) := by
  have hlen : 0 < s.agent.postCache.length := List.length_pos.mpr h2
  have hg := navigate_guard_neg s h1 hlen
  constructor
  · intro hidx
    have ht : targetOf s "next" = 0 := by
      refine targetOf_next_wrap s ?_
      rcases hidx with h | h
      · exact Or.inl h
      · exact Or.inr (le_of_eq h.symm)
    rw [navigate_valid s "next" hg (by rw [ht]; constructor <;> omega), ht]
  · intro i h0 hlt hcur
    have ht : targetOf s "next" = i + 1 := by
      rw [targetOf_next_step s (by rw [hcur]; omega), hcur]
    rw [navigate_valid s "next" hg (by rw [ht]; constructor <;> omega), ht]

theorem C3_circular_next_witness :
    (sTwo.agent.isEnabled = true ∧ sTwo.agent.postCache ≠ []) ∧
    (navigate sTwo "next").agent.currentIndex = 0 :=
  ⟨⟨rfl, by decide⟩, (C3_circular_next sTwo rfl (by decide)).1 (Or.inl rfl)⟩

/-! ## C4: previous floor -/

/-- C4 counterexample: in the enabled state `sPrev0` (Post List `[urlA]`,
cursor 0), `navigate("prev")` is not a no-op: the cursor stays 0, but the
cursor is persisted to the store and a page load of the index-0 post is
triggered, contrary to the claim's "nothing persisted, no page load". -/
theorem C4_prev_from_zero_counterexample :
    (navigate sPrev0 "prev").agent.currentIndex = 0 ∧
    (navigate sPrev0 "prev").pageLoads = [urlA] ∧
    (navigate sPrev0 "prev").store.currentIndex = some 0 ∧
    ¬(navigate sPrev0 "prev" = sPrev0) := by decide

/-- C4 amended: in an enabled state with a non-empty Post List,
`navigate("prev")` from the sentinel `-1` is a complete no-op; from cursor 0
it leaves the cursor at 0 but persists the cursor and triggers a page load
of the post at index 0; from any in-bounds cursor `i > 0` it sets the cursor
to `i-1`. -/
theorem C4_previous_floor_amended (s : Sys)
    (h1 : s.agent.isEnabled = true) (h2 : s.agent.postCache ≠ []) :
    (s.agent.currentIndex = -1 → navigate s "prev" = s)
  ∧ (s.agent.currentIndex = 0 →
       (navigate s "prev").agent.currentIndex = 0
     ∧ (navigate s "prev").store.currentIndex = some 0
     ∧ (navigate s "prev").pageLoads = s.pageLoads ++ [s.agent.postCache.getD 0 ""])
  ∧ (∀ i : Int, 0 < i → i < (s.agent.postCache.length : Int) →
       s.agent.currentIndex = i → (navigate s "prev").agent.currentIndex = i - 1) := by
  have hlen : 0 < s.agent.postCache.length := List.length_pos.mpr h2
  have hg := navigate_guard_neg s h1 hlen
  refine ⟨?_, ?_, ?_⟩
  · intro hcur
    have ht : targetOf s "prev" = -1 := by
      rw [targetOf_prev_nonpos s (by rw [hcur]; omega), hcur]
    exact navigate_invalid s "prev" hg (by rw [ht]; omega)
  · intro hcur
    have ht : targetOf s "prev" = 0 := by
      rw [targetOf_prev_nonpos s (by rw [hcur]; omega), hcur]
    rw [navigate_valid s "prev" hg (by rw [ht]; constructor <;> omega), ht]
    exact ⟨rfl, rfl, rfl⟩
  · intro i h0 hlt hcur
    have ht : targetOf s "prev" = i - 1 := by
      rw [targetOf_prev_pos s (by rw [hcur]; omega), hcur]
    rw [navigate_valid s "prev" hg (by rw [ht]; constructor <;> omega), ht]

theorem C4_previous_floor_amended_witness :
    (sPrev1.agent.isEnabled = true ∧ sPrev1.agent.postCache ≠ [] ∧
      (0 : Int) < 1 ∧ (1 : Int) < (sPrev1.agent.postCache.length : Int)) ∧
    (navigate sPrev1 "prev").agent.currentIndex = 1 - 1 :=
  ⟨⟨rfl, by decide, by decide, by decide⟩,
    (C4_previous_floor_amended sPrev1 rfl (by decide)).2.2 1 (by decide) (by decide) rfl⟩

/-! ## C5: navigation guard -/

/-- C5: when the extension is disabled or the Post List is empty,
`navigate` in either direction changes nothing: the whole system state
(cursor, Post List, persisted store, page loads) is returned unchanged. -/
theorem C5_navigation_guard (s : Sys) (direction : String)
    (h : s.agent.isEnabled = false ∨ s.agent.postCache = []) :
    navigate s direction = s := by
  have hg : s.agent.isEnabled = false ∨ s.agent.postCache.length = 0 := by
    rcases h with h | h
    · exact Or.inl h
    · exact Or.inr (by simp [h])
  unfold navigate
  rw [if_pos hg]

theorem C5_navigation_guard_witness :
    (sOff.agent.isEnabled = false ∨ sOff.agent.postCache = []) ∧
    navigate sOff "next" = sOff :=
  ⟨Or.inl rfl, C5_navigation_guard sOff "next" (Or.inl rfl)⟩

/-! ## C10: hydration of a persisted cursor 0 -/

/-- C10: when the store holds a non-empty `postCache` and `currentIndex = 0`,
`loadCache` restores the Post List but sets the in-memory cursor to the
sentinel `-1`: the JS `result.currentIndex || -1` treats the stored 0 as
falsy, so a persisted cursor of 0 is never restored as 0. -/
theorem C10_zero_cursor_not_restored (s : Sys) (l : List String)
    (h1 : s.store.postCache = some l) (h2 : l ≠ [])
    (h3 : s.store.currentIndex = some 0) :
    (loadCache s).agent.postCache = l ∧ (loadCache s).agent.currentIndex = -1 := by
  unfold loadCache
  rw [h1, h3]
  exact ⟨rfl, rfl⟩

theorem C10_zero_cursor_not_restored_witness :
    (sPrev0.store.postCache = some [urlA] ∧ ([urlA] : List String) ≠ [] ∧
      sPrev0.store.currentIndex = some 0) ∧
    (loadCache sPrev0).agent.postCache = [urlA] ∧
    (loadCache sPrev0).agent.currentIndex = -1 :=
  ⟨⟨rfl, by decide, rfl⟩,
    C10_zero_cursor_not_restored sPrev0 [urlA] rfl (by decide) rfl⟩

/-! ## C9: collection rate limit -/

/-- State after a performing collection at t=1000. -/
def c9run1 : Sys := collectPosts initialSys 1000 [[urlA]]

/-- State after a further invocation at t=1500, which the cooldown
suppresses (and which therefore does not reset the cooldown clock). -/
def c9run2 : Sys := collectPosts c9run1 1500 [[urlB]]

/-- C9 counterexample: the invocations at t=1500 and t=2400 differ by
900 ms < 1000 ms, yet the t=2400 invocation performs collection and changes
state (`urlB` is appended), because the suppressed t=1500 invocation did not
update `lastCollectionTime`.  The claim's "for every two invocations less
than 1000 ms apart, the second is a no-op" is therefore false. -/
theorem C9_rate_limit_counterexample :
    2400 - 1500 < 1000 ∧
    c9run2 = c9run1 ∧
    (collectPosts c9run2 2400 [[urlB]]).agent.postCache = [urlA, urlB] ∧
    ¬(collectPosts c9run2 2400 [[urlB]] = c9run2) := by decide

/-- C9 amended: an invocation less than 1000 ms after the last
state-changing (performing) collection returns with the whole state
unchanged; a performing invocation is at least 1000 ms after the previous
performing one, so at most one invocation per 1000 ms window performs
collection. -/
theorem C9_rate_limit_amended (s : Sys) (now : Nat) (tweets : List (List String)) :
    (now < s.agent.lastCollectionTime + 1000 → collectPosts s now tweets = s)
  ∧ (performsCollect s now →
       s.agent.lastCollectionTime + 1000 ≤ now ∧
       (collectPosts s now tweets).agent.lastCollectionTime = now)
  ∧ (∀ (now2 : Nat) (tweets2 : List (List String)), performsCollect s now →
       performsCollect (collectPosts s now tweets) now2 → now + 1000 ≤ now2) := by
  have hid : now < s.agent.lastCollectionTime + 1000 → collectPosts s now tweets = s := by
    intro h
    unfold collectPosts
    by_cases he : s.agent.isEnabled = false
    · rw [if_pos he]
    · rw [if_neg he, if_pos (by omega)]
  have hlast : performsCollect s now →
      (collectPosts s now tweets).agent.lastCollectionTime = now := by
    rintro ⟨he, hc⟩
    unfold collectPosts
    rw [if_neg (by simp [he]), if_neg (by omega)]
  refine ⟨hid, ?_, ?_⟩
  · rintro ⟨he, hc⟩
    refine ⟨by omega, hlast ⟨he, hc⟩⟩
  · rintro now2 tweets2 hp1 ⟨he2, hc2⟩
    rw [hlast hp1] at hc2
    omega

theorem C9_rate_limit_amended_witness :
    collectPosts initialSys 500 [[urlA]] = initialSys ∧
    (collectPosts initialSys 1000 [[urlA]]).agent.lastCollectionTime = 1000 :=
  ⟨(C9_rate_limit_amended initialSys 500 [[urlA]]).1 (by decide),
    ((C9_rate_limit_amended initialSys 1000 [[urlA]]).2.1 (by decide)).2⟩

/-! ## C8: link filtering -/

lemma mem_pushIfNew {cache : List String} {h href : String}
    (hm : href ∈ pushIfNew cache h) : href ∈ cache ∨ href = h := by
  unfold pushIfNew at hm
  split at hm
  · exact Or.inl hm
  · rcases List.mem_append.mp hm with h1 | h1
    · exact Or.inl h1
    · exact Or.inr (List.mem_singleton.mp h1)

lemma mem_foldl_collectTweet :
    ∀ (tweets : List (List String)) (cache : List String) (href : String),
      href ∈ tweets.foldl collectTweet cache →
      href ∈ cache ∨ validStatusLink href = true := by
  intro tweets
  induction tweets with
  | nil => exact fun cache href h => Or.inl h
  | cons t ts ih =>
    intro cache href h
    rcases ih (collectTweet cache t) href h with h1 | h1
    · unfold collectTweet at h1
      cases hf : findStatusLink t with
      | none => rw [hf] at h1; exact Or.inl h1
      | some l =>
        rw [hf] at h1
        rcases mem_pushIfNew h1 with h2 | h2
        · exact Or.inl h2
        · subst h2
          unfold findStatusLink at hf
          exact Or.inr (List.find?_some hf)
    · exact Or.inr h1

/-- The C8 scenario page: three post elements; the first and third carry a
valid status link, the second only an analytics sub-link. -/
def scenarioTweets : List (List String) :=
  [["https://x.com/u/status/123"],
   ["https://x.com/u/status/123/analytics"],
   ["https://x.com/u/status/456"]]

/-- C8: `collectPosts` appends a link only if it matches `/status/<digits>`
without an `/analytics` sub-path (every new entry passes
`validStatusLink`), and collecting the scenario page with 2 valid links and
1 analytics-only link yields a Post List of length 2. -/
theorem C8_link_filtering :
    (∀ (s : Sys) (now : Nat) (tweets : List (List String)) (href : String),
        href ∈ (collectPosts s now tweets).agent.postCache →
        href ∈ s.agent.postCache ∨ validStatusLink href = true)
  ∧ (collectPosts initialSys 1000 scenarioTweets).agent.postCache.length = 2 := by
  constructor
  · intro s now tweets href hm
    unfold collectPosts at hm
    by_cases he : s.agent.isEnabled = false
    · rw [if_pos he] at hm
      exact Or.inl hm
    · rw [if_neg he] at hm
      by_cases hc : now - s.agent.lastCollectionTime < 1000
      · rw [if_pos hc] at hm
        exact Or.inl hm
      · rw [if_neg hc] at hm
        exact mem_foldl_collectTweet tweets s.agent.postCache href hm
  · decide

theorem C8_link_filtering_witness :
    urlA ∈ (collectPosts initialSys 1000 [[urlA]]).agent.postCache ∧
    (urlA ∈ initialSys.agent.postCache ∨ validStatusLink urlA = true) :=
  ⟨by decide, C8_link_filtering.1 initialSys 1000 [[urlA]] urlA (by decide)⟩

/-! ## C7: background toggle contract -/

/-- The store right after install (background.js:8-15). -/
def store0 : Store :=
  { isEnabled := some true, postCache := some [], currentIndex := some (-1) }

/-- C7 counterexample: a `TOGGLE_STATE` request disabling the extension
while one page matching the target site (tab 7) is open.  The handler
persists the flag and clears the cache, but sends no `STATE_CHANGED`
broadcast at all, so tab 7 never receives the new flag — contrary to the
claim's "broadcasts the new flag to all pages matching the target site". -/
theorem C7_toggle_no_broadcast_counterexample :
    (toggleStateHandler store0 false true [7]).store.isEnabled = some false ∧
    (toggleStateHandler store0 false true [7]).broadcasts = [] ∧
    (7, false) ∉ (toggleStateHandler store0 false true [7]).broadcasts := by decide

/-- C7 amended: the `TOGGLE_STATE` handler persists the new flag, clears
`postCache`/`currentIndex` exactly when disabling, reloads the active page
exactly when enabling on a matching page, and sends no broadcast; the
`STATE_CHANGED` broadcast to all matching pages is performed only by the
keyboard-shortcut toggle handler. -/
theorem C7_toggle_contract_amended (st : Store) (enabled activeMatches : Bool)
    (tabs : List Nat) :
    (toggleStateHandler st enabled activeMatches tabs).store.isEnabled = some enabled
  ∧ (toggleStateHandler st enabled activeMatches tabs).store.postCache =
      (if enabled then st.postCache else some [])
  ∧ (toggleStateHandler st enabled activeMatches tabs).store.currentIndex =
      (if enabled then st.currentIndex else some (-1))
  ∧ (toggleStateHandler st enabled activeMatches tabs).broadcasts = []
  ∧ (toggleStateHandler st enabled activeMatches tabs).reloadedActive =
      (enabled && activeMatches)
  ∧ (commandToggleHandler st activeMatches tabs).broadcasts =
      tabs.map (fun t => (t, !(st.isEnabled.getD true))) :=
  ⟨rfl, rfl, rfl, rfl, rfl, rfl⟩

/-! ## C6: hydration round trip -/

/-- A store holding two post references and cursor 1. -/
def storeXY (X Y : String) : Store :=
  { isEnabled := some true, postCache := some [X, Y], currentIndex := some 1 }

/-- Toggle to disabled, then back to enabled (which reloads the active
matching page), then a fresh Page Agent attaches to the not-yet-rendered
page (its scan finds no tweets) and hydrates from the store. -/
def toggleRoundTrip (X Y : String) (now : Nat) : Sys :=
  let r1 := toggleStateHandler (storeXY X Y) false false []
  let r2 := toggleStateHandler r1.store true true []
  attachSys r2.store now []

lemma attachSys_empty_page (st : Store) (l : List String) (i : Int) (now : Nat)
    (h1 : st.isEnabled = some true) (h2 : st.postCache = some l)
    (h3 : st.currentIndex = some i) :
    (attachSys st now []).agent.postCache = l ∧
    (attachSys st now []).agent.currentIndex = jsOrNeg1 (some i) := by
  unfold attachSys
  rw [h1]
  simp only [Option.getD_some]
  rw [if_neg (by simp)]
  have hcp : ∀ (s2 : Sys), s2.agent.postCache = [] → s2.store = st →
      (if s2.agent.postCache.isEmpty then loadCache s2 else s2).agent.postCache = l ∧
      (if s2.agent.postCache.isEmpty then loadCache s2 else s2).agent.currentIndex
        = jsOrNeg1 (some i) := by
    intro s2 hpc hst
    rw [if_pos (by rw [hpc]; rfl)]
    unfold loadCache
    rw [hst, h2, h3]
    exact ⟨rfl, rfl⟩
  apply hcp
  · unfold collectPosts
    by_cases hc : now - 0 < 1000
    · rw [if_neg (by simp), if_pos (by simpa using hc)]
      rfl
    · rw [if_neg (by simp), if_neg (by simpa using hc)]
      rfl
  · unfold collectPosts
    by_cases hc : now - 0 < 1000
    · rw [if_neg (by simp), if_pos (by simpa using hc)]
    · rw [if_neg (by simp), if_neg (by simpa using hc)]
      rfl

/-- C6 counterexample: with persisted `postCache=[urlA,urlB]`,
`currentIndex=1`, toggling disabled then enabled and re-attaching yields
Post List `[]` and cursor `-1`, not `[urlA,urlB]` and 1: the disable toggle
cleared the persisted cache (background.js:68-75). -/
theorem C6_round_trip_counterexample :
    (toggleRoundTrip urlA urlB 5000).agent.postCache = [] ∧
    (toggleRoundTrip urlA urlB 5000).agent.currentIndex = -1 ∧
    ¬((toggleRoundTrip urlA urlB 5000).agent.postCache = [urlA, urlB] ∧
      (toggleRoundTrip urlA urlB 5000).agent.currentIndex = 1) := by decide

/-- C6 amended: because the disable toggle clears the persisted
`postCache`/`currentIndex`, the disable/enable round trip hydrates
Post List `[]` and cursor `-1`; hydration with the store left untouched
(attaching with `postCache=[X,Y]`, `currentIndex=1` still persisted) does
restore Post List `[X,Y]` and cursor 1 exactly. -/
theorem C6_hydration_amended (X Y : String) (now : Nat) :
    (toggleRoundTrip X Y now).agent.postCache = []
  ∧ (toggleRoundTrip X Y now).agent.currentIndex = -1
  ∧ (attachSys (storeXY X Y) now []).agent.postCache = [X, Y]
  ∧ (attachSys (storeXY X Y) now []).agent.currentIndex = 1 := by
  have h1 := attachSys_empty_page
    (toggleStateHandler (toggleStateHandler (storeXY X Y) false false []).store
      true true []).store [] (-1) now rfl rfl rfl
  have h2 := attachSys_empty_page (storeXY X Y) [X, Y] 1 now rfl rfl rfl
  exact ⟨h1.1, h1.2, h2.1, h2.2⟩

/-! ## C1: cursor bound invariant -/

lemma pushIfNew_pre (cache : List String) (h : String) :
    cache <+: pushIfNew cache h := by
  unfold pushIfNew
  by_cases hc : cache.contains h = true
  · rw [if_pos hc]
  · rw [if_neg hc]
    exact ⟨[h], rfl⟩

lemma foldl_collectTweet_pre (tweets : List (List String)) :
    ∀ cache : List String, cache <+: tweets.foldl collectTweet cache := by
  induction tweets with
  | nil => exact fun cache => List.prefix_refl cache
  | cons t ts ih =>
    intro cache
    have h1 : cache <+: collectTweet cache t := by
      unfold collectTweet
      cases hf : findStatusLink t with
      | none => exact List.prefix_refl cache
      | some l => exact pushIfNew_pre cache l
    exact h1.trans (ih (collectTweet cache t))

lemma collectPosts_cache_pre (s : Sys) (now : Nat) (tweets : List (List String)) :
    s.agent.postCache <+: (collectPosts s now tweets).agent.postCache := by
  unfold collectPosts
  split_ifs with h1 h2
  · exact List.prefix_refl _
  · exact List.prefix_refl _
  · exact foldl_collectTweet_pre tweets s.agent.postCache

lemma collectPosts_index_eq (s : Sys) (now : Nat) (tweets : List (List String)) :
    (collectPosts s now tweets).agent.currentIndex = s.agent.currentIndex := by
  unfold collectPosts
  split_ifs <;> rfl

lemma cursorInv_collect (s : Sys) (now : Nat) (tweets : List (List String))
    (h : cursorInv s) : cursorInv (collectPosts s now tweets) := by
  have hlen := (collectPosts_cache_pre s now tweets).length_le
  unfold cursorInv at h ⊢
  rw [collectPosts_index_eq]
  rcases h with h | h
  · exact Or.inl h
  · exact Or.inr ⟨h.1, by have := h.2; omega⟩

lemma cursorInv_navigate (s : Sys) (direction : String)
    (h : cursorInv s) : cursorInv (navigate s direction) := by
  unfold navigate
  split_ifs with h1 h2
  · exact h
  · exact Or.inr h2
  · exact h

/-- Step preservation of the cursor bound by every operation except
cache-hydration. -/
lemma cursorInv_stepOp (s : Sys) (op : Op) (h : cursorInv s)
    (hop : op ≠ Op.hydrate) : cursorInv (stepOp s op) := by
  cases op with
  | collect now tweets => exact cursorInv_collect s now tweets h
  | nav direction => exact cursorInv_navigate s direction h
  | stateChange b =>
    cases b with
    | false => exact Or.inl rfl
    | true => exact h
  | hydrate => exact absurd rfl hop

lemma cursorInv_runOps (ops : List Op) :
    ∀ s : Sys, cursorInv s → Op.hydrate ∉ ops → cursorInv (runOps s ops) := by
  induction ops with
  | nil => exact fun s hs _ => hs
  | cons op rest ih =>
    intro s hs hmem
    have hrest : Op.hydrate ∉ rest := fun hr => hmem (List.mem_cons_of_mem op hr)
    have hne : op ≠ Op.hydrate := by
      intro he
      exact hmem (he ▸ List.mem_cons_self op rest)
    exact ih (stepOp s op) (cursorInv_stepOp s op hs hne) hrest

/-- Operation sequence refuting the unconditional cursor bound: the posts
collected in one phase are navigated to index 1 (persisting `currentIndex=1`
to the store), a disable/enable state change clears the in-memory list, a
later collection persists a shorter `postCache=[urlC]` without touching the
stored index, and — after another in-memory clear — hydration on an empty
list restores `postCache=[urlC]` together with the stale stored cursor 1. -/
def cexOps : List Op :=
  [Op.collect 1000 [[urlA], [urlB]], Op.nav "next", Op.nav "next",
   Op.stateChange false, Op.stateChange true,
   Op.collect 3000 [[urlC]],
   Op.stateChange false, Op.stateChange true, Op.hydrate]

/-- C1 counterexample: the state reached from the initial state by the
operations of `cexOps` (collect, navigate, state-change, cache-hydration
only) has cursor 1 and Post List of length 1, violating
`cursor = -1 ∨ 0 ≤ cursor < length`. -/
theorem C1_cursor_bound_counterexample :
    ¬ cursorInv (runOps initialSys cexOps) ∧
    (runOps initialSys cexOps).agent.currentIndex = 1 ∧
    (runOps initialSys cexOps).agent.postCache.length = 1 := by decide

/-- C1 amended: the cursor bound invariant (cursor is the sentinel `-1` or
`0 ≤ cursor < length(Post List)`) holds in every state reachable from the
initial state by collect, navigate and state-change operations; it is
cache-hydration that can break it, by restoring a stale persisted index
that is out of bounds for the restored list. -/
theorem C1_cursor_bound_amended (ops : List Op) (h : Op.hydrate ∉ ops) :
    cursorInv (runOps initialSys ops) :=
  cursorInv_runOps ops initialSys (Or.inl rfl) h

theorem C1_cursor_bound_amended_witness :
    Op.hydrate ∉ [Op.collect 1000 [[urlA]], Op.nav "next"] ∧
    cursorInv (runOps initialSys [Op.collect 1000 [[urlA]], Op.nav "next"]) :=
  ⟨by decide, C1_cursor_bound_amended [Op.collect 1000 [[urlA]], Op.nav "next"] (by decide)⟩

/-! ## C2: deduplication with first-seen order -/

/-- The stream of status links a scan of `tweets` encounters, in document
order: the first valid status link of each tweet, when there is one. -/
def foundStream (tweets : List (List String)) : List String :=
  tweets.filterMap findStatusLink

lemma foldl_collectTweet_eq_push (tweets : List (List String)) :
    ∀ cache : List String,
      tweets.foldl collectTweet cache = (foundStream tweets).foldl pushIfNew cache := by
  induction tweets with
  | nil => exact fun cache => rfl
  | cons t ts ih =>
    intro cache
    cases hf : findStatusLink t with
    | none =>
      simp only [foundStream, List.filterMap_cons, hf, List.foldl_cons, collectTweet]
      exact ih cache
    | some l =>
      simp only [foundStream, List.filterMap_cons, hf, List.foldl_cons, collectTweet]
      exact ih (pushIfNew cache l)

/-- First-seen-order deduplication, following the spec's words: walk the
stream, skip a reference already seen, otherwise append it (extending the
seen set), so each reference is kept exactly once, at the position of its
first occurrence. -/
def specDedupFrom (seen : List String) : List String → List String
  | [] => []
  | h :: t =>
      if seen.contains h then specDedupFrom seen t
      else h :: specDedupFrom (seen ++ [h]) t

lemma foldl_pushIfNew_eq (hs : List String) :
    ∀ acc : List String, hs.foldl pushIfNew acc = acc ++ specDedupFrom acc hs := by
  induction hs with
  | nil => intro acc; simp [specDedupFrom]
  | cons h t ih =>
    intro acc
    simp only [List.foldl_cons]
    by_cases hc : acc.contains h
    · have e1 : pushIfNew acc h = acc := by unfold pushIfNew; rw [if_pos hc]
      have e2 : specDedupFrom acc (h :: t) = specDedupFrom acc t := by
        show (if acc.contains h then _ else _) = _
        rw [if_pos hc]
      rw [e1, e2]
      exact ih acc
    · have e1 : pushIfNew acc h = acc ++ [h] := by unfold pushIfNew; rw [if_neg hc]
      have e2 : specDedupFrom acc (h :: t) = h :: specDedupFrom (acc ++ [h]) t := by
        show (if acc.contains h then _ else _) = _
        rw [if_neg hc]
      rw [e1, e2, ih (acc ++ [h])]
      simp

lemma specDedupFrom_append (xs : List String) :
    ∀ (acc ys : List String),
      specDedupFrom acc (xs ++ ys) =
        specDedupFrom acc xs ++ specDedupFrom (acc ++ specDedupFrom acc xs) ys := by
  induction xs with
  | nil => intro acc ys; simp [specDedupFrom]
  | cons h t ih =>
    intro acc ys
    simp only [List.cons_append]
    by_cases hc : acc.contains h
    · have e1 : specDedupFrom acc (h :: (t ++ ys)) = specDedupFrom acc (t ++ ys) := by
        show (if acc.contains h then _ else _) = _
        rw [if_pos hc]
      have e2 : specDedupFrom acc (h :: t) = specDedupFrom acc t := by
        show (if acc.contains h then _ else _) = _
        rw [if_pos hc]
      rw [e1, e2]
      exact ih acc ys
    · have e1 : specDedupFrom acc (h :: (t ++ ys)) =
          h :: specDedupFrom (acc ++ [h]) (t ++ ys) := by
        show (if acc.contains h then _ else _) = _
        rw [if_neg hc]
      have e2 : specDedupFrom acc (h :: t) = h :: specDedupFrom (acc ++ [h]) t := by
        show (if acc.contains h then _ else _) = _
        rw [if_neg hc]
      rw [e1, e2, ih (acc ++ [h]) ys]
      simp [List.append_assoc]

lemma pushIfNew_nodup (cache : List String) (h : String)
    (hn : cache.Nodup) : (pushIfNew cache h).Nodup := by
  unfold pushIfNew
  split_ifs with hc
  · exact hn
  · have hmem : h ∉ cache := by simpa using hc
    refine hn.append (List.nodup_singleton h) ?_
    intro a ha hb
    rw [List.mem_singleton] at hb
    subst hb
    exact hmem ha

lemma foldl_collectTweet_nodup (tweets : List (List String)) :
    ∀ cache : List String, cache.Nodup → (tweets.foldl collectTweet cache).Nodup := by
  induction tweets with
  | nil => exact fun cache h => h
  | cons t ts ih =>
    intro cache h
    refine ih (collectTweet cache t) ?_
    unfold collectTweet
    cases findStatusLink t with
    | none => exact h
    | some l => exact pushIfNew_nodup cache l h

lemma collectPosts_nodup (s : Sys) (now : Nat) (tweets : List (List String))
    (h : s.agent.postCache.Nodup) : (collectPosts s now tweets).agent.postCache.Nodup := by
  unfold collectPosts
  split_ifs with h1 h2
  · exact h
  · exact h
  · exact foldl_collectTweet_nodup tweets s.agent.postCache h

lemma collectRun_nodup (invs : List (Nat × List (List String))) :
    ∀ s : Sys, s.agent.postCache.Nodup → (collectRun s invs).agent.postCache.Nodup := by
  induction invs with
  | nil => exact fun s h => h
  | cons p rest ih =>
    intro s h
    exact ih (collectPosts s p.1 p.2) (collectPosts_nodup s p.1 p.2 h)

lemma collectRun_pre (invs : List (Nat × List (List String))) :
    ∀ s : Sys, s.agent.postCache <+: (collectRun s invs).agent.postCache := by
  induction invs with
  | nil => exact fun s => List.prefix_refl _
  | cons p rest ih =>
    intro s
    exact (collectPosts_cache_pre s p.1 p.2).trans (ih (collectPosts s p.1 p.2))

lemma collectRun_append (s : Sys) (invs extra : List (Nat × List (List String))) :
    collectRun s (invs ++ extra) = collectRun (collectRun s invs) extra := by
  simp [collectRun, List.foldl_append]

/-- The stream of status links a whole run of `collectPosts` invocations
scans: suppressed invocations (disabled, or within the cooldown of the last
performing invocation) contribute nothing; a performing invocation at time
`now` contributes its page's found links and resets the cooldown clock. -/
def runStream : Bool → Nat → List (Nat × List (List String)) → List String
  | _, _, [] => []
  | enabled, last, (now, tws) :: rest =>
      if enabled = false then runStream enabled last rest
      else if now - last < 1000 then runStream enabled last rest
      else foundStream tws ++ runStream enabled now rest

lemma collectRun_cache_eq (invs : List (Nat × List (List String))) :
    ∀ s : Sys,
      (collectRun s invs).agent.postCache =
        s.agent.postCache ++
          specDedupFrom s.agent.postCache
            (runStream s.agent.isEnabled s.agent.lastCollectionTime invs) := by
  induction invs with
  | nil => intro s; simp [collectRun, runStream, specDedupFrom]
  | cons p rest ih =>
    intro s
    obtain ⟨now, tws⟩ := p
    have hrun : collectRun s ((now, tws) :: rest) =
        collectRun (collectPosts s now tws) rest := rfl
    rw [hrun]
    by_cases he : s.agent.isEnabled = false
    · have hcp : collectPosts s now tws = s := by
        unfold collectPosts; rw [if_pos he]
      have hrs : runStream s.agent.isEnabled s.agent.lastCollectionTime
          ((now, tws) :: rest) =
          runStream s.agent.isEnabled s.agent.lastCollectionTime rest := by
        show (if s.agent.isEnabled = false then _ else _) = _
        rw [if_pos he]
      rw [hcp, ih s, hrs]
    · by_cases hc : now - s.agent.lastCollectionTime < 1000
      · have hcp : collectPosts s now tws = s := by
          unfold collectPosts; rw [if_neg he, if_pos hc]
        have hrs : runStream s.agent.isEnabled s.agent.lastCollectionTime
            ((now, tws) :: rest) =
            runStream s.agent.isEnabled s.agent.lastCollectionTime rest := by
          show (if s.agent.isEnabled = false then _ else _) = _
          rw [if_neg he, if_pos hc]
        rw [hcp, ih s, hrs]
      · have hcache : (collectPosts s now tws).agent.postCache =
            s.agent.postCache ++
              specDedupFrom s.agent.postCache (foundStream tws) := by
          unfold collectPosts
          rw [if_neg he, if_neg hc]
          show tws.foldl collectTweet s.agent.postCache = _
          rw [foldl_collectTweet_eq_push, foldl_pushIfNew_eq]
        have henb : (collectPosts s now tws).agent.isEnabled = s.agent.isEnabled := by
          unfold collectPosts
          rw [if_neg he, if_neg hc]
        have hlast : (collectPosts s now tws).agent.lastCollectionTime = now := by
          unfold collectPosts
          rw [if_neg he, if_neg hc]
        have hrs : runStream s.agent.isEnabled s.agent.lastCollectionTime
            ((now, tws) :: rest) =
            foundStream tws ++ runStream s.agent.isEnabled now rest := by
          show (if s.agent.isEnabled = false then _ else _) = _
          rw [if_neg he, if_neg hc]
        rw [ih (collectPosts s now tws), hcache, henb, hlast, hrs,
          specDedupFrom_append (foundStream tws) s.agent.postCache
            (runStream s.agent.isEnabled now rest)]
        simp [List.append_assoc]

/-- C2: over every sequence of `collectPosts` invocations from the initial
state, the Post List is duplicate-free, append-only (every earlier list is
a prefix of every later one), and equals the first-seen-order
deduplication of the stream of status links the run scanned. -/
theorem C2_dedup_first_seen_order (invs extra : List (Nat × List (List String))) :
    ((collectRun initialSys invs).agent.postCache).Nodup
  ∧ (collectRun initialSys invs).agent.postCache <+:
      (collectRun initialSys (invs ++ extra)).agent.postCache
  ∧ (collectRun initialSys invs).agent.postCache =
      specDedupFrom [] (runStream true 0 invs) := by
  refine ⟨?_, ?_, ?_⟩
  · exact collectRun_nodup invs initialSys List.nodup_nil
  · rw [collectRun_append]
    exact collectRun_pre extra (collectRun initialSys invs)
  · have h := collectRun_cache_eq invs initialSys
    simpa [initialSys, freshAgent] using h

end TFS
